import Mathlib

/-!
# Scolor: the round engine, the input handlers and the main loop of `scolor.c`

A shallow embedding of `src/scolor.c`.  The single global `scolor` struct becomes the
record `Scolor`, passed explicitly.  Everything the C code obtains from outside (the values
returned by `SDL_GetTicks()` and `rand()`, the events SDL hands over) is an explicit argument.

Machine integers:
* `Uint32` values are natural numbers, arithmetic on them is taken modulo `2^32 = 4294967296`;
* `int` values are integers.  `roundDuration` and `game_frame` wrap `int` arithmetic into
  `[-2^31, 2^31)` by `wrapInt` (two's complement, what a build with `-fwrapv` computes).
  The C standard leaves signed overflow undefined: `roundDuration_checked` and
  `game_frame_checked` yield `none` there.  Inside the range of `int` the two agree.

Floats: `scolor.game.step` and the normalised pointer coordinates are exact rationals; the
rounding of `float` arithmetic is not modelled.

Rendering (`display_*`), `SDL_Delay` and the texture caches do not touch the modelled fields
and are left out.
-/

namespace ScolorC

/-! ## Machine arithmetic -/

/-- Reduction of an integer into the range of a C `int` (32 bits, two's complement). -/
def wrapInt (x : Int) : Int := (x + 2147483648) % 4294967296 - 2147483648

/-- Conversion of a C `int` to `Uint32`. -/
def toUint32 (x : Int) : Nat := (x % 4294967296).toNat

/-- Subtraction of two `Uint32` values. -/
def sub32 (a b : Nat) : Nat := (a % 4294967296 + 4294967296 - b % 4294967296) % 4294967296

/-- Addition of two `Uint32` values. -/
def add32 (a b : Nat) : Nat := (a + b) % 4294967296

/-- The C operator `%` on `int` (truncated remainder). -/
def cMod (a b : Int) : Int := Int.tmod a b

/-- The `MAX(a, b)` definition of line 90: `((a) > (b) ? (a) : (b))`. -/
def MAX (a b : Int) : Int := if a > b then a else b

/-! ## The data of `scolor` -/

/-- The anonymous `enum` of `scolor.gamemode`. -/
inductive Gamemode where
  | TITLE
  | INGAME
  | GAMEOVER
  | QUIT
  deriving DecidableEq, Repr

def SCOLOR_YELLOW : Int := 0
def SCOLOR_MAGENTA : Int := 1
def SCOLOR_GREEN : Int := 2
def SCOLOR_NONE : Int := -1

/-- Value of `SDLK_RIGHT` in SDL2 (`SDL_SCANCODE_RIGHT = 79` with bit 30 set). -/
def KEYSYM_RIGHT : Int := 1073741903
/-- Value of `SDLK_LEFT` in SDL2 (`SDL_SCANCODE_LEFT = 80` with bit 30 set). -/
def KEYSYM_LEFT : Int := 1073741904
/-- Value of `SDLK_DOWN` in SDL2 (`SDL_SCANCODE_DOWN = 81` with bit 30 set). -/
def KEYSYM_DOWN : Int := 1073741905

/-- Value of `SDL_WINDOWEVENT_SIZE_CHANGED` in SDL2. -/
def SDL_WINDOWEVENT_SIZE_CHANGED : Nat := 6

/-- The fields of `scolor.display` the game logic reads or writes. -/
structure Display where
  windowID : Nat
  width : Nat
  height : Nat
  deriving DecidableEq

/-- The field of `scolor.title` the game logic reads or writes. -/
structure Title where
  playHovered : Bool
  deriving DecidableEq

/-- The struct `scolor.game`. -/
structure Game where
  start : Nat
  step : ℚ
  score : Int
  background : Int
  current : Int
  choice : Int
  deriving DecidableEq

/-- The global `scolor` (the handler table is the constant `handlers` below). -/
structure Scolor where
  gamemode : Gamemode
  display : Display
  title : Title
  game : Game
  deriving DecidableEq

/-- An `SDL_Event` as far as `handle_event` inspects it.  `other` stands for every type the
`switch` does not name (and for the stale contents of `event` after a poll that found
nothing). -/
inductive Event where
  | SDL_QUIT
  | SDL_KEYDOWN (sym : Int)
  | SDL_MOUSEMOTION (x y : Int)
  | SDL_MOUSEBUTTONDOWN (x y : Int) (button : Int)
  | SDL_WINDOWEVENT (windowID : Nat) (event : Nat) (data1 data2 : Int)
  | other
  deriving DecidableEq

/-- What the environment returns to the calls made during one iteration of the main loop. -/
structure Env where
  /-- the events SDL hands to `handle_event`, in order -/
  events : List Event
  /-- `SDL_GetTicks()` in `game_setup` -/
  setupTicks : Nat
  /-- the first `rand()` in `game_setup` -/
  setupRand1 : Nat
  /-- the second `rand()` in `game_setup` -/
  setupRand2 : Nat
  /-- `SDL_GetTicks()` at line 93 of `game_frame` -/
  frameTicks1 : Nat
  /-- `SDL_GetTicks()` at line 98 of `game_frame` -/
  frameTicks2 : Nat
  /-- `rand()` in `game_frame` -/
  frameRand : Nat


/-! ## The round engine -/

/-- `game_setup` (lines 75-88).  `ticks` is the value of `SDL_GetTicks()`, `rand1` and `rand2`
are the values of the two `rand()` calls, in order. -/
def game_setup (ticks rand1 rand2 : Nat) (s : Scolor) : Scolor :=
  let background := cMod rand1 3
  let current := cMod rand2 3
  let current := if current = background then cMod (current + 2) 3 else current
  { s with
    gamemode := Gamemode.INGAME
    game := { start := ticks, step := 0, score := 0,
              background := background, current := current, choice := SCOLOR_NONE } }

/-- The local `roundDuration` of `game_frame` (line 94):
`Uint32 roundDuration = MAX(2000 - scolor.game.score * 100, 500)`.  Exact when
`score * 100` and `2000 - score * 100` fit an `int`; outside that range C leaves the value
undefined and this definition gives the two's-complement one (see `roundDuration_checked`). -/
def roundDuration (score : Int) : Nat :=
  toUint32 (MAX (wrapInt (2000 - wrapInt (score * 100))) 500)

/-- `game_frame` (lines 91-116).  `currentTime` is the `SDL_GetTicks()` of line 93, `ticks2`
the `SDL_GetTicks()` of line 98, `rnd` the `rand()` of line 102.  Signed arithmetic is
wrapped (see `game_frame_checked` for the C rule). -/
def game_frame (currentTime ticks2 rnd : Nat) (s : Scolor) : Scolor :=
  let roundDuration := roundDuration s.game.score
  if sub32 currentTime s.game.start ≥ roundDuration then
    if s.game.choice = s.game.current then
      let background := s.game.current
      let current := cMod rnd 3
      let current := if current = background then cMod (current + 1) 3 else current
      { s with
        game := { start := ticks2, step := 0, score := wrapInt (s.game.score + 1),
                  background := background, current := current, choice := SCOLOR_NONE } }
    else
      { s with gamemode := Gamemode.GAMEOVER }
  else
    { s with
      game := { s.game with
        step := (sub32 (add32 s.game.start roundDuration) currentTime : ℚ) / (roundDuration : ℚ) } }

/-! ## Input handlers -/

/-- `handler_dummy` (line 383). -/
def handler_dummy (s : Scolor) : Scolor := s

/-- `handler_title_pressed` (lines 385-394). -/
def handler_title_pressed (env : Env) (_x _y : ℚ) (_button : Int) (s : Scolor) : Scolor :=
  if s.title.playHovered then
    game_setup env.setupTicks env.setupRand1 env.setupRand2
      { s with title := { s.title with playHovered := false } }
  else s

/-- `handler_title_moved` (lines 396-406).  The coordinates are exact rationals and the
constants the decimal values written in the source; the code compares a `float` with the
nearest doubles, so exactly on a boundary (such as `x = 666/1000`) it can decide
differently. -/
def handler_title_moved (x y : ℚ) (s : Scolor) : Scolor :=
  if x ≥ 0.333 ∧ x ≤ 0.666 ∧ y ≥ 0.8 then
    { s with title := { s.title with playHovered := true } }
  else
    { s with title := { s.title with playHovered := false } }

/-- `handler_game_keydown` (lines 408-424). -/
def handler_game_keydown (keysym : Int) (s : Scolor) : Scolor :=
  if keysym = KEYSYM_LEFT then { s with game := { s.game with choice := SCOLOR_YELLOW } }
  else if keysym = KEYSYM_DOWN then { s with game := { s.game with choice := SCOLOR_MAGENTA } }
  else if keysym = KEYSYM_RIGHT then { s with game := { s.game with choice := SCOLOR_GREEN } }
  else s

/-- `handler_gameover_pressed` (lines 426-432). -/
def handler_gameover_pressed (_x _y : ℚ) (_button : Int) (s : Scolor) : Scolor :=
  { s with gamemode := Gamemode.TITLE }

/-- One entry of `scolor.handlers`. -/
structure Handlers where
  keydown : Env → Int → Scolor → Scolor
  pressed : Env → ℚ → ℚ → Int → Scolor → Scolor
  moved : Env → ℚ → ℚ → Scolor → Scolor

/-- The table `scolor.handlers[GAMEMODE_QUIT]` as `main` fills it (lines 450-460).  It has
three entries; `GAMEMODE_QUIT` is not an index of it. -/
def handlers : Gamemode → Option Handlers
  | Gamemode.TITLE => some
      { keydown := fun _ _ s => handler_dummy s
        pressed := handler_title_pressed
        moved := fun _ x y s => handler_title_moved x y s }
  | Gamemode.INGAME => some
      { keydown := fun _ k s => handler_game_keydown k s
        pressed := fun _ _ _ _ s => handler_dummy s
        moved := fun _ _ _ s => handler_dummy s }
  | Gamemode.GAMEOVER => some
      { keydown := fun _ _ s => handler_dummy s
        pressed := fun _ x y b s => handler_gameover_pressed x y b s
        moved := fun _ _ _ s => handler_dummy s }
  | Gamemode.QUIT => none

/-- The quotient of a coordinate by a display dimension, as computed in `handle_event`:
`(float) event.motion.x / scolor.display.width`, taken as the exact quotient (for a zero
dimension the value here is 0, where C yields an infinity or a NaN). -/
def fdiv (a : Int) (b : Nat) : ℚ := (a : ℚ) / (b : ℚ)

/-- The result of one pass through the `switch` of `handle_event` (lines 348-378). -/
inductive Pass where
  /-- a `return` statement was reached, with this state -/
  | returned (s : Scolor)
  /-- the `continue` of the `default` label was reached -/
  | continued
  /-- the handler table was indexed outside its three entries -/
  | outside

/-- The `switch` of `handle_event` on one event (lines 348-378). -/
def handle_switch (env : Env) (event : Event) (s : Scolor) : Pass :=
  match event with
  | Event.SDL_QUIT => Pass.returned { s with gamemode := Gamemode.QUIT }
  | Event.SDL_KEYDOWN sym =>
      match handlers s.gamemode with
      | some h => Pass.returned (h.keydown env sym s)
      | none => Pass.outside
  | Event.SDL_MOUSEMOTION x y =>
      match handlers s.gamemode with
      | some h => Pass.returned (h.moved env (fdiv x s.display.width) (fdiv y s.display.height) s)
      | none => Pass.outside
  | Event.SDL_MOUSEBUTTONDOWN x y button =>
      match handlers s.gamemode with
      | some h =>
          Pass.returned (h.pressed env (fdiv x s.display.width) (fdiv y s.display.height) button s)
      | none => Pass.outside
  | Event.SDL_WINDOWEVENT windowID event data1 data2 =>
      if windowID = s.display.windowID ∧ event = SDL_WINDOWEVENT_SIZE_CHANGED then
        Pass.returned
          { s with display := { s.display with width := toUint32 data1, height := toUint32 data2 } }
      else Pass.continued
  | Event.other => Pass.continued

/-- `handle_event` (lines 337-380) on the events SDL delivers, in order.  The result is
`none` when the call does not return a state: in the blocking variant when every delivered
event is skipped (the call keeps waiting), or when the table is indexed outside its entries.
With `poll` set only the first event is looked at. -/
def handle_event (poll : Bool) (env : Env) : List Event → Scolor → Option Scolor
  | [], s => if poll then some s else none
  | event :: rest, s =>
      match handle_switch env event s with
      | Pass.returned s1 => some s1
      | Pass.outside => none
      | Pass.continued => if poll then some s else handle_event poll env rest s

/-! ## The main loop -/

/-- The state `main` enters its loop with (lines 448-463): static storage is zeroed,
`display_setup` sets the window size, `windowID` is whatever SDL assigned. -/
def main_init (windowID : Nat) : Scolor :=
  { gamemode := Gamemode.TITLE
    display := { windowID := windowID, width := 640, height := 480 }
    title := { playHovered := false }
    game := { start := 0, step := 0, score := 0, background := 0, current := 0, choice := 0 } }

/-- The body of the `while` loop of `main` (lines 466-482): one iteration. -/
def main_iteration (env : Env) (s : Scolor) : Option Scolor :=
  match s.gamemode with
  | Gamemode.TITLE => handle_event false env env.events s
  | Gamemode.INGAME =>
      (handle_event true env env.events s).map
        (game_frame env.frameTicks1 env.frameTicks2 env.frameRand)
  | Gamemode.GAMEOVER => handle_event false env env.events s
  | Gamemode.QUIT => some s

/-- The `while(scolor.gamemode != GAMEMODE_QUIT)` loop of `main` (lines 465-483), run on the
environments of its successive iterations.  The result is the state when the loop is left,
or the state reached when the listed iterations are used up; `none` when an iteration yields
no state. -/
def main_loop : List Env → Scolor → Option Scolor
  | [], s => some s
  | env :: rest, s =>
      if s.gamemode = Gamemode.QUIT then some s
      else (main_iteration env s).bind (main_loop rest)

/-! ## Predicates on states -/

/-- The colour predicate: background and target are game colours (0, 1 or 2) and differ. -/
def coloursOk (s : Scolor) : Prop :=
  (s.game.background = 0 ∨ s.game.background = 1 ∨ s.game.background = 2) ∧
  (s.game.current = 0 ∨ s.game.current = 1 ∨ s.game.current = 2) ∧
  s.game.current ≠ s.game.background

instance (s : Scolor) : Decidable (coloursOk s) := by
  unfold coloursOk
  infer_instance

/-- The round data other than `choice` are the same in both states. -/
def sameRound (s s1 : Scolor) : Prop :=
  s1.game.start = s.game.start ∧ s1.game.step = s.game.step ∧ s1.game.score = s.game.score ∧
  s1.game.background = s.game.background ∧ s1.game.current = s.game.current

/-- A state the main loop can be in at the head of an iteration (or when it is left),
for some window id and some behaviour of the environment. -/
def Reachable (s : Scolor) : Prop :=
  ∃ (windowID : Nat) (envs : List Env), main_loop envs (main_init windowID) = some s

/-! ## Concrete states used in the examples -/

/-- A state in the middle of a game: score 0, round started at time 0, background yellow,
target magenta, with the given value of `choice`. -/
def round0 (choice : Int) : Scolor :=
  { gamemode := Gamemode.INGAME
    display := { windowID := 1, width := 640, height := 480 }
    title := { playHovered := false }
    game := { start := 0, step := 1, score := 0, background := SCOLOR_YELLOW,
              current := SCOLOR_MAGENTA, choice := choice } }

/-- A Title state with the pointer over the Play control. -/
def titleHovered : Scolor :=
  { main_init 1 with title := { playHovered := true } }

/-- An iteration in which SDL delivers the quit event and the clock reads 2001. -/
def quitEnv : Env :=
  { events := [Event.SDL_QUIT], setupTicks := 0, setupRand1 := 0, setupRand2 := 0,
    frameTicks1 := 2001, frameTicks2 := 2001, frameRand := 0 }

/-- An iteration in which SDL delivers a pointer move to (320, 432), over the Play control
of the 640 x 480 window. -/
def moveEnv : Env :=
  { events := [Event.SDL_MOUSEMOTION 320 432], setupTicks := 0, setupRand1 := 0,
    setupRand2 := 0, frameTicks1 := 0, frameTicks2 := 0, frameRand := 0 }

/-- An iteration in which SDL delivers a click; `game_setup` would read the clock at 1 and
draw 0 and 1. -/
def pressEnv : Env :=
  { events := [Event.SDL_MOUSEBUTTONDOWN 320 432 1], setupTicks := 1, setupRand1 := 0,
    setupRand2 := 1, frameTicks1 := 0, frameTicks2 := 0, frameRand := 0 }

/-! ## Counting the draws of the target colour -/

/-- Among the three residues 0, 1, 2 of the second `rand()` of `game_setup`, the number for
which the target colour comes out as `c` (the first `rand()` being `rand1`). -/
def setupCount (s : Scolor) (ticks rand1 : Nat) (c : Int) : Nat :=
  ((List.range 3).filter
    (fun r => decide ((game_setup ticks rand1 r s).game.current = c))).length

/-- Among the three residues 0, 1, 2 of the `rand()` of `game_frame`, the number for which
the target colour after the step comes out as `c`. -/
def frameCount (s : Scolor) (currentTime ticks2 : Nat) (c : Int) : Nat :=
  ((List.range 3).filter
    (fun r => decide ((game_frame currentTime ticks2 r s).game.current = c))).length

/-! ## Sequences of ticks and selections -/

/-- One step of a game in progress: a call of `game_frame` (with what the clock and `rand()`
return to it) or a key-down event given to `handler_game_keydown`. -/
inductive Action where
  | frame (currentTime ticks2 rnd : Nat)
  | key (sym : Int)
  deriving DecidableEq

/-- The effect of one action. -/
def Action.apply (a : Action) (s : Scolor) : Scolor :=
  match a with
  | Action.frame currentTime ticks2 rnd => game_frame currentTime ticks2 rnd s
  | Action.key sym => handler_game_keydown sym s

/-- The action is a call of `game_frame` that takes the successful-resolution branch. -/
def Action.succeeds (a : Action) (s : Scolor) : Bool :=
  match a with
  | Action.frame currentTime _ _ =>
      decide (sub32 currentTime s.game.start ≥ roundDuration s.game.score) &&
        decide (s.game.choice = s.game.current)
  | Action.key _ => false

/-- The action is a call of `game_frame` that takes the failed-resolution branch. -/
def Action.fails (a : Action) (s : Scolor) : Bool :=
  match a with
  | Action.frame currentTime _ _ =>
      decide (sub32 currentTime s.game.start ≥ roundDuration s.game.score) &&
        decide (s.game.choice ≠ s.game.current)
  | Action.key _ => false

/-- The state after a sequence of actions. -/
def run : List Action → Scolor → Scolor
  | [], s => s
  | a :: rest, s => run rest (a.apply s)

/-- The number of successful resolutions in a sequence of actions. -/
def wins : List Action → Scolor → Nat
  | [], _ => 0
  | a :: rest, s => (if a.succeeds s then 1 else 0) + wins rest (a.apply s)

/-- No action of the sequence is a failed resolution. -/
def noFailure : List Action → Scolor → Bool
  | [], _ => true
  | a :: rest, s => !a.fails s && noFailure rest (a.apply s)

/-- The key that selects colour `c`. -/
def keyFor (c : Int) : Int :=
  if c = SCOLOR_YELLOW then KEYSYM_LEFT
  else if c = SCOLOR_MAGENTA then KEYSYM_DOWN
  else KEYSYM_RIGHT

/-- A perfect game of `n` rounds: in each round the player presses the key of the target
colour, and the next tick comes exactly at the deadline (both clock reads agree, `rand()`
returns 0). -/
def winActions : Nat → Scolor → List Action
  | 0, _ => []
  | n + 1, s =>
      let k := Action.key (keyFor s.game.current)
      let t := add32 s.game.start (roundDuration s.game.score)
      let f := Action.frame t t 0
      k :: f :: winActions n (f.apply (k.apply s))

/-- The state `game_setup` produces at time 1 with draws 0 and 1. -/
def freshGame : Scolor := game_setup 1 0 1 (main_init 1)

/-! ## The round engine under the C rule for signed overflow

`roundDuration` and `game_frame` above wrap `int` arithmetic.  The definitions of this
section follow the C standard instead: an `int` operation whose result does not fit an `int`
has no defined result, and the function then yields `none`. -/

/-- The value fits a C `int` (32 bits). -/
def inInt (x : Int) : Prop := -2147483648 ≤ x ∧ x ≤ 2147483647

instance (x : Int) : Decidable (inInt x) := by
  unfold inInt
  infer_instance

/-- Line 94, `Uint32 roundDuration = MAX(2000 - scolor.game.score * 100, 500)`, with `none`
when the product `score * 100` or the difference `2000 - score * 100` does not fit an
`int`. -/
def roundDuration_checked (score : Int) : Option Nat :=
  if inInt (score * 100) ∧ inInt (2000 - score * 100) then
    some (toUint32 (MAX (2000 - score * 100) 500))
  else none

/-- `game_frame` (lines 91-116) with `none` when line 94 or the `score += 1` of line 100
leaves the range of `int`. -/
def game_frame_checked (currentTime ticks2 rnd : Nat) (s : Scolor) : Option Scolor :=
  match roundDuration_checked s.game.score with
  | none => none
  | some roundDuration =>
      if sub32 currentTime s.game.start ≥ roundDuration then
        if s.game.choice = s.game.current then
          if inInt (s.game.score + 1) then
            let background := s.game.current
            let current := cMod rnd 3
            let current := if current = background then cMod (current + 1) 3 else current
            some { s with
              game := { start := ticks2, step := 0, score := s.game.score + 1,
                        background := background, current := current, choice := SCOLOR_NONE } }
          else none
        else
          some { s with gamemode := Gamemode.GAMEOVER }
      else
        some { s with
          game := { s.game with
            step := (sub32 (add32 s.game.start roundDuration) currentTime : ℚ)
                      / (roundDuration : ℚ) } }

/-- The body of the `while` loop of `main` with `game_frame_checked` as the tick. -/
def main_iteration_checked (env : Env) (s : Scolor) : Option Scolor :=
  match s.gamemode with
  | Gamemode.TITLE => handle_event false env env.events s
  | Gamemode.INGAME =>
      (handle_event true env env.events s).bind
        (game_frame_checked env.frameTicks1 env.frameTicks2 env.frameRand)
  | Gamemode.GAMEOVER => handle_event false env env.events s
  | Gamemode.QUIT => some s

/-- The `while` loop of `main` with `game_frame_checked` as the tick: `none` also when some
tick of the run overflows. -/
def main_loop_checked : List Env → Scolor → Option Scolor
  | [], s => some s
  | env :: rest, s =>
      if s.gamemode = Gamemode.QUIT then some s
      else (main_iteration_checked env s).bind (main_loop_checked rest)

/-- A state the main loop can be in at the head of an iteration (or when it is left) after
a run in which no `int` operation overflowed. -/
def ReachableChecked (s : Scolor) : Prop :=
  ∃ (windowID : Nat) (envs : List Env), main_loop_checked envs (main_init windowID) = some s

/-- The effect of one action, with `game_frame_checked` as the tick. -/
def Action.apply_checked (a : Action) (s : Scolor) : Option Scolor :=
  match a with
  | Action.frame currentTime ticks2 rnd => game_frame_checked currentTime ticks2 rnd s
  | Action.key sym => some (handler_game_keydown sym s)

/-- The state after a sequence of actions, with `game_frame_checked` as the tick. -/
def run_checked : List Action → Scolor → Option Scolor
  | [], s => some s
  | a :: rest, s => (a.apply_checked s).bind (run_checked rest)

/-- One loop iteration of a perfect round: SDL delivers the key of the target colour and the
clock then reads exactly the deadline (`rand()` returns 0). -/
def perfectEnv (s : Scolor) : Env :=
  { events := [Event.SDL_KEYDOWN (keyFor s.game.current)], setupTicks := 0, setupRand1 := 0,
    setupRand2 := 0,
    frameTicks1 := add32 s.game.start (roundDuration s.game.score),
    frameTicks2 := add32 s.game.start (roundDuration s.game.score),
    frameRand := 0 }

/-- The loop iterations of a perfect game of `n` rounds, one iteration per round. -/
def perfectEnvs : Nat → Scolor → List Env
  | 0, _ => []
  | n + 1, s =>
      perfectEnv s ::
        perfectEnvs n
          (game_frame (add32 s.game.start (roundDuration s.game.score))
            (add32 s.game.start (roundDuration s.game.score)) 0
            (handler_game_keydown (keyFor s.game.current) s))

/-! ## Round-engine facts -/

theorem wrapInt_of_range (x : Int) (h1 : -2147483648 ≤ x) (h2 : x ≤ 2147483647) :
    wrapInt x = x := by
  unfold wrapInt
  omega

theorem cMod_three (r : Nat) : cMod (r : Int) 3 = ((r % 3 : Nat) : Int) := by
  unfold cMod
  rw [Int.tmod_eq_emod (by omega) (by omega)]
  omega

theorem wrapInt_bounds (x : Int) : -2147483648 ≤ wrapInt x ∧ wrapInt x ≤ 2147483647 := by
  unfold wrapInt
  omega

theorem toUint32_of_range (x : Int) (h0 : 0 ≤ x) (h1 : x ≤ 4294967295) :
    (toUint32 x : Int) = x := by
  unfold toUint32
  omega

theorem MAX_eq_max (a b : Int) : MAX a b = max a b := by
  unfold MAX
  split <;> omega

theorem roundDuration_cast (score : Int) :
    (roundDuration score : Int) = max (wrapInt (2000 - wrapInt (score * 100))) 500 := by
  have hb := wrapInt_bounds (2000 - wrapInt (score * 100))
  unfold roundDuration
  rw [MAX_eq_max, toUint32_of_range _ (by omega) (by omega)]

theorem roundDuration_ge (score : Int) : 500 ≤ roundDuration score := by
  have h := roundDuration_cast score
  omega

theorem roundDuration_lt (score : Int) : roundDuration score < 2147483648 := by
  have h := roundDuration_cast score
  have hb := wrapInt_bounds (2000 - wrapInt (score * 100))
  omega

theorem roundDuration_of_range (score : Int) (h0 : 0 ≤ score) (h1 : score * 100 ≤ 2147483647) :
    (roundDuration score : Int) = max (2000 - 100 * score) 500 := by
  rw [roundDuration_cast, wrapInt_of_range (score * 100) (by omega) h1,
    wrapInt_of_range _ (by omega) (by omega)]
  omega

/-- C3. Difficulty curve: for every score `s ≥ 0` whose product `s * 100` fits a C `int`, the
`roundDuration` computed by `game_frame` is `max (2000 - 100 * s) 500`; it is at least 500
(so never zero, never a wrapped negative), it does not increase with the score, and it is
exactly 500 from score 15 on, in particular at score 19. -/
theorem roundDuration_curve (s : Int) (h0 : 0 ≤ s) (h1 : s * 100 ≤ 2147483647) :
    (roundDuration s : Int) = max (2000 - 100 * s) 500 ∧
    500 ≤ roundDuration s ∧
    (∀ t : Int, s ≤ t → t * 100 ≤ 2147483647 → roundDuration t ≤ roundDuration s) ∧
    (15 ≤ s → roundDuration s = 500) ∧
    roundDuration 19 = 500 := by
  have hs := roundDuration_of_range s h0 h1
  refine ⟨hs, roundDuration_ge s, ?_, ?_, by decide⟩
  · intro t hst ht
    have h := roundDuration_of_range t (by omega) ht
    omega
  · intro h15
    omega

theorem roundDuration_curve_witness :
    (roundDuration 7 : Int) = max (2000 - 100 * 7) 500 ∧
    500 ≤ roundDuration 7 ∧
    (∀ t : Int, 7 ≤ t → t * 100 ≤ 2147483647 → roundDuration t ≤ roundDuration 7) ∧
    ((15 : Int) ≤ 7 → roundDuration 7 = 500) ∧
    roundDuration 19 = 500 :=
  roundDuration_curve 7 (by decide) (by decide)

theorem game_frame_resolved_ok (s : Scolor) (currentTime ticks2 rnd : Nat)
    (hd : sub32 currentTime s.game.start ≥ roundDuration s.game.score)
    (hc : s.game.choice = s.game.current) :
    game_frame currentTime ticks2 rnd s =
      { s with
        game := { start := ticks2, step := 0, score := wrapInt (s.game.score + 1),
                  background := s.game.current,
                  current := if cMod rnd 3 = s.game.current then cMod (cMod rnd 3 + 1) 3
                             else cMod rnd 3,
                  choice := SCOLOR_NONE } } := by
  unfold game_frame
  simp only [hd, hc, if_true]

theorem game_frame_resolved_ko (s : Scolor) (currentTime ticks2 rnd : Nat)
    (hd : sub32 currentTime s.game.start ≥ roundDuration s.game.score)
    (hc : s.game.choice ≠ s.game.current) :
    game_frame currentTime ticks2 rnd s = { s with gamemode := Gamemode.GAMEOVER } := by
  unfold game_frame
  simp only [hd, hc, if_true, if_false]

theorem game_frame_running (s : Scolor) (currentTime ticks2 rnd : Nat)
    (hd : sub32 currentTime s.game.start < roundDuration s.game.score) :
    game_frame currentTime ticks2 rnd s =
      { s with
        game := { s.game with
          step := (sub32 (add32 s.game.start (roundDuration s.game.score)) currentTime : ℚ)
                    / (roundDuration s.game.score : ℚ) } } := by
  unfold game_frame
  simp only [ge_iff_le, Nat.not_le.mpr hd, if_false]

/-- C1 (amended). Successful resolution: when the elapsed time `currentTime - start`
(unsigned 32-bit) has reached `roundDuration score` and `choice = current`, one `game_frame`
step sets the score to `score + 1` in C `int` arithmetic (exactly `score + 1` below
`INT_MAX`), the background to the old target, the choice to `SCOLOR_NONE`, the progress to 0
and the start to the value of the second clock read (line 98), not to `currentTime`; the
game mode, display and title data are untouched.  From score 0 the new score is 1 and the
next duration 1900. -/
theorem game_frame_success (s : Scolor) (currentTime ticks2 rnd : Nat)
    (hd : sub32 currentTime s.game.start ≥ roundDuration s.game.score)
    (hc : s.game.choice = s.game.current) :
    (game_frame currentTime ticks2 rnd s).game.score = wrapInt (s.game.score + 1) ∧
    (-2147483648 ≤ s.game.score → s.game.score < 2147483647 →
      (game_frame currentTime ticks2 rnd s).game.score = s.game.score + 1) ∧
    (game_frame currentTime ticks2 rnd s).game.background = s.game.current ∧
    (game_frame currentTime ticks2 rnd s).game.choice = SCOLOR_NONE ∧
    (game_frame currentTime ticks2 rnd s).game.start = ticks2 ∧
    (game_frame currentTime ticks2 rnd s).game.step = 0 ∧
    (game_frame currentTime ticks2 rnd s).gamemode = s.gamemode ∧
    (game_frame currentTime ticks2 rnd s).display = s.display ∧
    (game_frame currentTime ticks2 rnd s).title = s.title ∧
    (s.game.score = 0 →
      (game_frame currentTime ticks2 rnd s).game.score = 1 ∧
      roundDuration (game_frame currentTime ticks2 rnd s).game.score = 1900) := by
  rw [game_frame_resolved_ok s currentTime ticks2 rnd hd hc]
  refine ⟨rfl, ?_, rfl, rfl, rfl, rfl, rfl, rfl, rfl, ?_⟩
  · intro h1 h2
    exact wrapInt_of_range _ (by omega) (by omega)
  · intro h0
    simp only [h0]
    exact ⟨by decide, by decide⟩

theorem game_frame_success_witness :
    (game_frame 2001 2001 0 (round0 SCOLOR_MAGENTA)).game.score
      = wrapInt ((round0 SCOLOR_MAGENTA).game.score + 1) ∧
    (-2147483648 ≤ (round0 SCOLOR_MAGENTA).game.score →
      (round0 SCOLOR_MAGENTA).game.score < 2147483647 →
      (game_frame 2001 2001 0 (round0 SCOLOR_MAGENTA)).game.score
        = (round0 SCOLOR_MAGENTA).game.score + 1) ∧
    (game_frame 2001 2001 0 (round0 SCOLOR_MAGENTA)).game.background
      = (round0 SCOLOR_MAGENTA).game.current ∧
    (game_frame 2001 2001 0 (round0 SCOLOR_MAGENTA)).game.choice = SCOLOR_NONE ∧
    (game_frame 2001 2001 0 (round0 SCOLOR_MAGENTA)).game.start = 2001 ∧
    (game_frame 2001 2001 0 (round0 SCOLOR_MAGENTA)).game.step = 0 ∧
    (game_frame 2001 2001 0 (round0 SCOLOR_MAGENTA)).gamemode = (round0 SCOLOR_MAGENTA).gamemode ∧
    (game_frame 2001 2001 0 (round0 SCOLOR_MAGENTA)).display = (round0 SCOLOR_MAGENTA).display ∧
    (game_frame 2001 2001 0 (round0 SCOLOR_MAGENTA)).title = (round0 SCOLOR_MAGENTA).title ∧
    ((round0 SCOLOR_MAGENTA).game.score = 0 →
      (game_frame 2001 2001 0 (round0 SCOLOR_MAGENTA)).game.score = 1 ∧
      roundDuration (game_frame 2001 2001 0 (round0 SCOLOR_MAGENTA)).game.score = 1900) :=
  game_frame_success (round0 SCOLOR_MAGENTA) 2001 2001 0 (by decide) (by decide)

/-- C1 (counterexample). At score 0, start 0, `choice = current`, with the clock reading 2001
at line 93 and 2002 at line 98: the deadline has passed and the choice is right, yet the new
start is 2002 and not the timestamp 2001 the deadline test used. -/
theorem second_clock_read_differs :
    sub32 2001 (round0 SCOLOR_MAGENTA).game.start
      ≥ roundDuration (round0 SCOLOR_MAGENTA).game.score ∧
    (round0 SCOLOR_MAGENTA).game.choice = (round0 SCOLOR_MAGENTA).game.current ∧
    (game_frame 2001 2002 0 (round0 SCOLOR_MAGENTA)).game.start = 2002 ∧
    (game_frame 2001 2002 0 (round0 SCOLOR_MAGENTA)).game.start ≠ 2001 := by
  rw [game_frame_resolved_ok (round0 SCOLOR_MAGENTA) 2001 2002 0 (by decide) (by decide)]
  exact ⟨by decide, by decide, rfl, by decide⟩

/-- C2. Failed resolution: when the elapsed time has reached `roundDuration score` and
`choice ≠ current` (`SCOLOR_NONE` included), one `game_frame` step sets the game mode to
`GAMEMODE_GAMEOVER` and changes nothing else: score, background, current, choice, start and
progress keep their values. -/
theorem game_frame_failure (s : Scolor) (currentTime ticks2 rnd : Nat)
    (hd : sub32 currentTime s.game.start ≥ roundDuration s.game.score)
    (hc : s.game.choice ≠ s.game.current) :
    game_frame currentTime ticks2 rnd s = { s with gamemode := Gamemode.GAMEOVER } ∧
    (game_frame currentTime ticks2 rnd s).gamemode = Gamemode.GAMEOVER ∧
    (game_frame currentTime ticks2 rnd s).game.score = s.game.score ∧
    (game_frame currentTime ticks2 rnd s).game.background = s.game.background ∧
    (game_frame currentTime ticks2 rnd s).game.current = s.game.current ∧
    (game_frame currentTime ticks2 rnd s).game.choice = s.game.choice ∧
    (game_frame currentTime ticks2 rnd s).game.start = s.game.start ∧
    (game_frame currentTime ticks2 rnd s).game.step = s.game.step := by
  rw [game_frame_resolved_ko s currentTime ticks2 rnd hd hc]
  exact ⟨rfl, rfl, rfl, rfl, rfl, rfl, rfl, rfl⟩

theorem game_frame_failure_witness :
    game_frame 2001 2001 0 (round0 SCOLOR_NONE)
      = { round0 SCOLOR_NONE with gamemode := Gamemode.GAMEOVER } ∧
    (game_frame 2001 2001 0 (round0 SCOLOR_NONE)).gamemode = Gamemode.GAMEOVER ∧
    (game_frame 2001 2001 0 (round0 SCOLOR_NONE)).game.score = (round0 SCOLOR_NONE).game.score ∧
    (game_frame 2001 2001 0 (round0 SCOLOR_NONE)).game.background
      = (round0 SCOLOR_NONE).game.background ∧
    (game_frame 2001 2001 0 (round0 SCOLOR_NONE)).game.current
      = (round0 SCOLOR_NONE).game.current ∧
    (game_frame 2001 2001 0 (round0 SCOLOR_NONE)).game.choice = (round0 SCOLOR_NONE).game.choice ∧
    (game_frame 2001 2001 0 (round0 SCOLOR_NONE)).game.start = (round0 SCOLOR_NONE).game.start ∧
    (game_frame 2001 2001 0 (round0 SCOLOR_NONE)).game.step = (round0 SCOLOR_NONE).game.step :=
  game_frame_failure (round0 SCOLOR_NONE) 2001 2001 0 (by decide) (by decide)

/-- C5. Tick before the deadline: when the elapsed time is strictly below
`roundDuration score`, one `game_frame` step rewrites `step` only; background, current,
choice, score, start and the game mode (and the display and title data) are unchanged. -/
theorem game_frame_before_deadline (s : Scolor) (currentTime ticks2 rnd : Nat)
    (hd : sub32 currentTime s.game.start < roundDuration s.game.score) :
    game_frame currentTime ticks2 rnd s =
      { s with game := { s.game with step := (game_frame currentTime ticks2 rnd s).game.step } } ∧
    (game_frame currentTime ticks2 rnd s).game.background = s.game.background ∧
    (game_frame currentTime ticks2 rnd s).game.current = s.game.current ∧
    (game_frame currentTime ticks2 rnd s).game.choice = s.game.choice ∧
    (game_frame currentTime ticks2 rnd s).game.score = s.game.score ∧
    (game_frame currentTime ticks2 rnd s).game.start = s.game.start ∧
    (game_frame currentTime ticks2 rnd s).gamemode = s.gamemode := by
  rw [game_frame_running s currentTime ticks2 rnd hd]
  exact ⟨rfl, rfl, rfl, rfl, rfl, rfl, rfl⟩

theorem game_frame_before_deadline_witness :
    game_frame 1000 1000 0 (round0 SCOLOR_MAGENTA) =
      { round0 SCOLOR_MAGENTA with
        game := { (round0 SCOLOR_MAGENTA).game with
          step := (game_frame 1000 1000 0 (round0 SCOLOR_MAGENTA)).game.step } } ∧
    (game_frame 1000 1000 0 (round0 SCOLOR_MAGENTA)).game.background
      = (round0 SCOLOR_MAGENTA).game.background ∧
    (game_frame 1000 1000 0 (round0 SCOLOR_MAGENTA)).game.current
      = (round0 SCOLOR_MAGENTA).game.current ∧
    (game_frame 1000 1000 0 (round0 SCOLOR_MAGENTA)).game.choice
      = (round0 SCOLOR_MAGENTA).game.choice ∧
    (game_frame 1000 1000 0 (round0 SCOLOR_MAGENTA)).game.score
      = (round0 SCOLOR_MAGENTA).game.score ∧
    (game_frame 1000 1000 0 (round0 SCOLOR_MAGENTA)).game.start
      = (round0 SCOLOR_MAGENTA).game.start ∧
    (game_frame 1000 1000 0 (round0 SCOLOR_MAGENTA)).gamemode
      = (round0 SCOLOR_MAGENTA).gamemode :=
  game_frame_before_deadline (round0 SCOLOR_MAGENTA) 1000 1000 0 (by decide)

/-! ## What one loop iteration can do to the round data -/

theorem cMod_nonneg (a : Int) (h : 0 ≤ a) : cMod a 3 = a % 3 := by
  unfold cMod
  exact Int.tmod_eq_emod h (by omega)

theorem game_setup_coloursOk (ticks rand1 rand2 : Nat) (s : Scolor) :
    coloursOk (game_setup ticks rand1 rand2 s) := by
  simp only [game_setup, coloursOk, cMod_three]
  have h1 : rand1 % 3 < 3 := Nat.mod_lt _ (by omega)
  have h2 : rand2 % 3 < 3 := Nat.mod_lt _ (by omega)
  split
  · rw [cMod_nonneg _ (by omega)]
    omega
  · omega

theorem game_frame_coloursOk (currentTime ticks2 rnd : Nat) (s : Scolor) (h : coloursOk s) :
    coloursOk (game_frame currentTime ticks2 rnd s) := by
  by_cases hd : sub32 currentTime s.game.start ≥ roundDuration s.game.score
  · by_cases hc : s.game.choice = s.game.current
    · rw [game_frame_resolved_ok s currentTime ticks2 rnd hd hc]
      simp only [coloursOk, cMod_three] at h ⊢
      have h1 : rnd % 3 < 3 := Nat.mod_lt _ (by omega)
      split
      · rw [cMod_nonneg _ (by omega)]
        omega
      · omega
    · rw [game_frame_resolved_ko s currentTime ticks2 rnd hd hc]
      exact h
  · rw [game_frame_running s currentTime ticks2 rnd (Nat.not_le.mp hd)]
    exact h

theorem handle_switch_round (env : Env) (event : Event) (s s1 : Scolor)
    (h : handle_switch env event s = Pass.returned s1) :
    (sameRound s s1 ∧ (s1.gamemode = Gamemode.INGAME → s.gamemode = Gamemode.INGAME)) ∨
    (s.gamemode = Gamemode.TITLE ∧
      ∃ s0, s1 = game_setup env.setupTicks env.setupRand1 env.setupRand2 s0) := by
  cases event with
  | SDL_QUIT =>
    simp only [handle_switch, Pass.returned.injEq] at h
    subst h
    exact Or.inl ⟨⟨rfl, rfl, rfl, rfl, rfl⟩, fun hq => by cases hq⟩
  | SDL_KEYDOWN sym =>
    cases hm : s.gamemode <;> simp only [handle_switch, handlers, hm, handler_dummy,
      Pass.returned.injEq, reduceCtorEq] at h
    · subst h
      exact Or.inl ⟨⟨rfl, rfl, rfl, rfl, rfl⟩, fun hq => by rw [hm] at hq; cases hq⟩
    · subst h
      refine Or.inl ⟨?_, fun _ => rfl⟩
      unfold handler_game_keydown sameRound
      split_ifs <;> exact ⟨rfl, rfl, rfl, rfl, rfl⟩
    · subst h
      exact Or.inl ⟨⟨rfl, rfl, rfl, rfl, rfl⟩, fun hq => by rw [hm] at hq; cases hq⟩
  | SDL_MOUSEMOTION x y =>
    cases hm : s.gamemode <;> simp only [handle_switch, handlers, hm, handler_dummy,
      Pass.returned.injEq, reduceCtorEq] at h
    · subst h
      refine Or.inl ⟨?_, ?_⟩
      · unfold handler_title_moved sameRound
        split_ifs <;> exact ⟨rfl, rfl, rfl, rfl, rfl⟩
      · unfold handler_title_moved
        split_ifs <;> exact fun hq => by simp only [hm, reduceCtorEq] at hq
    · subst h
      exact Or.inl ⟨⟨rfl, rfl, rfl, rfl, rfl⟩, fun _ => rfl⟩
    · subst h
      exact Or.inl ⟨⟨rfl, rfl, rfl, rfl, rfl⟩, fun hq => by rw [hm] at hq; cases hq⟩
  | SDL_MOUSEBUTTONDOWN x y button =>
    cases hm : s.gamemode <;> simp only [handle_switch, handlers, hm, handler_dummy,
      Pass.returned.injEq, reduceCtorEq] at h
    · subst h
      unfold handler_title_pressed
      split_ifs
      · exact Or.inr ⟨rfl, _, rfl⟩
      · exact Or.inl ⟨⟨rfl, rfl, rfl, rfl, rfl⟩, fun hq => by rw [hm] at hq; cases hq⟩
    · subst h
      exact Or.inl ⟨⟨rfl, rfl, rfl, rfl, rfl⟩, fun _ => rfl⟩
    · subst h
      exact Or.inl ⟨⟨rfl, rfl, rfl, rfl, rfl⟩, fun hq => by cases hq⟩
  | SDL_WINDOWEVENT windowID ev data1 data2 =>
    simp only [handle_switch] at h
    split_ifs at h
    simp only [Pass.returned.injEq] at h
    subst h
    exact Or.inl ⟨⟨rfl, rfl, rfl, rfl, rfl⟩, fun hq => hq⟩
  | other =>
    simp only [handle_switch, reduceCtorEq] at h

theorem handle_event_round (poll : Bool) (env : Env) (events : List Event) (s s1 : Scolor)
    (h : handle_event poll env events s = some s1) :
    (sameRound s s1 ∧ (s1.gamemode = Gamemode.INGAME → s.gamemode = Gamemode.INGAME)) ∨
    (s.gamemode = Gamemode.TITLE ∧
      ∃ s0, s1 = game_setup env.setupTicks env.setupRand1 env.setupRand2 s0) := by
  induction events with
  | nil =>
    simp only [handle_event] at h
    split_ifs at h
    simp only [Option.some.injEq] at h
    subst h
    exact Or.inl ⟨⟨rfl, rfl, rfl, rfl, rfl⟩, fun hq => hq⟩
  | cons event rest ih =>
    simp only [handle_event] at h
    cases hp : handle_switch env event s with
    | returned s2 =>
      rw [hp] at h
      simp only [Option.some.injEq] at h
      subst h
      exact handle_switch_round env event s s2 hp
    | outside =>
      rw [hp] at h
      simp only [reduceCtorEq] at h
    | continued =>
      rw [hp] at h
      simp only at h
      split_ifs at h
      · simp only [Option.some.injEq] at h
        subst h
        exact Or.inl ⟨⟨rfl, rfl, rfl, rfl, rfl⟩, fun hq => hq⟩
      · exact ih h

theorem main_iteration_round (P : Scolor → Prop)
    (hsetup : ∀ t r1 r2 s0, P (game_setup t r1 r2 s0))
    (hframe : ∀ t1 t2 r s, P s → P (game_frame t1 t2 r s))
    (hsame : ∀ s s1, sameRound s s1 → P s → P s1)
    (env : Env) (s s1 : Scolor) (h : main_iteration env s = some s1) :
    (P s → P s1) ∧ ((s.gamemode = Gamemode.INGAME → P s) → s1.gamemode = Gamemode.INGAME → P s1) := by
  unfold main_iteration at h
  cases hm : s.gamemode <;> simp only [hm] at h
  · rcases handle_event_round false env env.events s s1 h with ⟨hr, hg⟩ | ⟨_, s0, hs0⟩
    · refine ⟨hsame s s1 hr, fun _ h1 => ?_⟩
      have := hg h1
      rw [hm] at this
      cases this
    · subst hs0
      exact ⟨fun _ => hsetup _ _ _ _, fun _ _ => hsetup _ _ _ _⟩
  · simp only [Option.map_eq_some'] at h
    obtain ⟨s2, h2, hf⟩ := h
    subst hf
    rcases handle_event_round true env env.events s s2 h2 with ⟨hr, _⟩ | ⟨ht, _⟩
    · exact ⟨fun hp => hframe _ _ _ _ (hsame s s2 hr hp),
        fun hp _ => hframe _ _ _ _ (hsame s s2 hr (hp rfl))⟩
    · rw [hm] at ht
      cases ht
  · rcases handle_event_round false env env.events s s1 h with ⟨hr, hg⟩ | ⟨ht, _⟩
    · refine ⟨hsame s s1 hr, fun _ h1 => ?_⟩
      have := hg h1
      rw [hm] at this
      cases this
    · rw [hm] at ht
      cases ht
  · simp only [Option.some.injEq] at h
    subst h
    exact ⟨fun hp => hp, fun _ h1 => by rw [hm] at h1; cases h1⟩

theorem main_loop_round (P : Scolor → Prop)
    (hsetup : ∀ t r1 r2 s0, P (game_setup t r1 r2 s0))
    (hframe : ∀ t1 t2 r s, P s → P (game_frame t1 t2 r s))
    (hsame : ∀ s s1, sameRound s s1 → P s → P s1)
    (envs : List Env) :
    ∀ s s1 : Scolor, main_loop envs s = some s1 →
      (P s → P s1) ∧
      ((s.gamemode = Gamemode.INGAME → P s) → s1.gamemode = Gamemode.INGAME → P s1) := by
  induction envs with
  | nil =>
    intro s s1 h
    simp only [main_loop, Option.some.injEq] at h
    subst h
    exact ⟨fun hp => hp, fun hp => hp⟩
  | cons env rest ih =>
    intro s s1 h
    simp only [main_loop] at h
    split_ifs at h with hq
    · simp only [Option.some.injEq] at h
      subst h
      exact ⟨fun hp => hp, fun hp => hp⟩
    · simp only [Option.bind_eq_some] at h
      obtain ⟨s2, h2, h3⟩ := h
      have hi := main_iteration_round P hsetup hframe hsame env s s2 h2
      have hl := ih s2 s1 h3
      exact ⟨fun hp => hl.1 (hi.1 hp), fun hp => hl.2 (hi.2 hp)⟩

theorem coloursOk_sameRound (s s1 : Scolor) (h : sameRound s s1) (hs : coloursOk s) :
    coloursOk s1 := by
  obtain ⟨_, _, _, hb, hc⟩ := h
  unfold coloursOk at hs ⊢
  rw [hb, hc]
  exact hs

theorem main_iteration_move : main_iteration moveEnv (main_init 1) = some titleHovered := by
  simp only [main_iteration, main_init, moveEnv, handle_event, handle_switch, handlers,
    handler_title_moved, fdiv, titleHovered]
  norm_num

theorem main_iteration_press :
    main_iteration pressEnv titleHovered = some (game_setup 1 0 1 (main_init 1)) := rfl

theorem reachable_new_game : Reachable (game_setup 1 0 1 (main_init 1)) := by
  refine ⟨1, [moveEnv, pressEnv], ?_⟩
  have q1 : (main_init 1).gamemode ≠ Gamemode.QUIT := by decide
  have q2 : titleHovered.gamemode ≠ Gamemode.QUIT := by decide
  simp only [main_loop, q1, q2, if_false, main_iteration_move, main_iteration_press,
    Option.some_bind]

/-- C4. Colour invariant: `game_setup` always produces a background and a target among the
three game colours 0, 1, 2 with the target different from the background; `game_frame`
preserves that predicate whichever branch runs; hence it holds in every state the main loop
reaches in game mode `GAMEMODE_INGAME`, also between the event handling and the tick of an
iteration. -/
theorem colours_invariant :
    (∀ (ticks rand1 rand2 : Nat) (s : Scolor), coloursOk (game_setup ticks rand1 rand2 s)) ∧
    (∀ (s : Scolor), coloursOk s →
      ∀ currentTime ticks2 rnd : Nat, coloursOk (game_frame currentTime ticks2 rnd s)) ∧
    (∀ s : Scolor, Reachable s → s.gamemode = Gamemode.INGAME → coloursOk s) ∧
    (∀ (s s1 : Scolor) (env : Env), Reachable s → s.gamemode = Gamemode.INGAME →
      handle_event true env env.events s = some s1 → coloursOk s1) := by
  have hreach : ∀ s : Scolor, Reachable s → s.gamemode = Gamemode.INGAME → coloursOk s := by
    intro s ⟨windowID, envs, h⟩ hm
    refine (main_loop_round coloursOk game_setup_coloursOk
      (fun t1 t2 r s hs => game_frame_coloursOk t1 t2 r s hs) coloursOk_sameRound
      envs (main_init windowID) s h).2 ?_ hm
    intro hi
    simp only [main_init, reduceCtorEq] at hi
  refine ⟨game_setup_coloursOk, fun s hs t1 t2 r => game_frame_coloursOk t1 t2 r s hs, hreach, ?_⟩
  intro s s1 env hr hm he
  rcases handle_event_round true env env.events s s1 he with ⟨hsame, _⟩ | ⟨ht, _⟩
  · exact coloursOk_sameRound s s1 hsame (hreach s hr hm)
  · rw [hm] at ht
    cases ht

theorem colours_invariant_witness :
    coloursOk (game_frame 2001 2001 0 (round0 SCOLOR_MAGENTA)) ∧
    coloursOk (game_setup 1 0 1 (main_init 1)) :=
  ⟨colours_invariant.2.1 (round0 SCOLOR_MAGENTA) (by decide) 2001 2001 0,
   colours_invariant.2.2.1 (game_setup 1 0 1 (main_init 1)) reachable_new_game rfl⟩

/-! ## Progress -/

theorem numerator_eq (start now D : Nat) (hD : D < 4294967296) (h : sub32 now start < D) :
    sub32 (add32 start D) now = D - sub32 now start := by
  unfold sub32 add32 at *
  omega

theorem sub32_self (a : Nat) : sub32 a a = 0 := by
  unfold sub32
  omega

theorem game_frame_step_running (s : Scolor) (currentTime ticks2 rnd : Nat)
    (hd : sub32 currentTime s.game.start < roundDuration s.game.score) :
    (game_frame currentTime ticks2 rnd s).game.step =
      ((roundDuration s.game.score - sub32 currentTime s.game.start : Nat) : ℚ)
        / (roundDuration s.game.score : ℚ) := by
  have hlt := roundDuration_lt s.game.score
  rw [game_frame_running s currentTime ticks2 rnd hd,
    numerator_eq s.game.start currentTime _ (by omega) hd]

theorem game_frame_step_range (currentTime ticks2 rnd : Nat) (s : Scolor)
    (h : 0 ≤ s.game.step ∧ s.game.step ≤ 1) :
    0 ≤ (game_frame currentTime ticks2 rnd s).game.step ∧
    (game_frame currentTime ticks2 rnd s).game.step ≤ 1 := by
  by_cases hd : sub32 currentTime s.game.start ≥ roundDuration s.game.score
  · by_cases hc : s.game.choice = s.game.current
    · rw [game_frame_resolved_ok s currentTime ticks2 rnd hd hc]
      exact ⟨le_refl _, zero_le_one⟩
    · rw [game_frame_resolved_ko s currentTime ticks2 rnd hd hc]
      exact h
  · have hd1 := Nat.not_le.mp hd
    have hge := roundDuration_ge s.game.score
    rw [game_frame_step_running s currentTime ticks2 rnd hd1]
    have hpos : (0 : ℚ) < (roundDuration s.game.score : ℚ) := by
      have : 0 < roundDuration s.game.score := by omega
      exact_mod_cast this
    constructor
    · exact div_nonneg (Nat.cast_nonneg _) hpos.le
    · rw [div_le_one hpos]
      exact_mod_cast Nat.sub_le _ _

/-! ## Input handlers and game modes -/

theorem handler_game_keydown_mode (keysym : Int) (s : Scolor) :
    (handler_game_keydown keysym s).gamemode = s.gamemode := by
  unfold handler_game_keydown
  split_ifs <;> rfl

theorem handler_title_moved_mode (x y : ℚ) (s : Scolor) :
    (handler_title_moved x y s).gamemode = s.gamemode := by
  unfold handler_title_moved
  split_ifs <;> rfl

/-- C7. Mode transitions caused by input handlers: in every mode other than
`GAMEMODE_QUIT` the table has an entry, `handle_event` dispatches key-down, pointer-move and
pointer-press events to it, and the entry changes the game mode in two cases only, a press
in Title while `playHovered` is set (the flag is cleared, `game_setup` runs, the mode becomes
InGame) and any press in GameOver (the mode becomes Title).  A press in Title without
`playHovered`, Title.keydown, InGame.pressed, InGame.moved, GameOver.keydown and
GameOver.moved leave the whole state unchanged; InGame.keydown and Title.moved keep the
mode. -/
theorem handlers_mode_transitions (s : Scolor) (env : Env) (hq : s.gamemode ≠ Gamemode.QUIT) :
    ∃ h : Handlers, handlers s.gamemode = some h ∧
      (∀ sym, handle_switch env (Event.SDL_KEYDOWN sym) s = Pass.returned (h.keydown env sym s)) ∧
      (∀ x y, handle_switch env (Event.SDL_MOUSEMOTION x y) s =
        Pass.returned (h.moved env (fdiv x s.display.width) (fdiv y s.display.height) s)) ∧
      (∀ x y b, handle_switch env (Event.SDL_MOUSEBUTTONDOWN x y b) s =
        Pass.returned (h.pressed env (fdiv x s.display.width) (fdiv y s.display.height) b s)) ∧
      (∀ sym, (h.keydown env sym s).gamemode = s.gamemode) ∧
      (∀ x y, (h.moved env x y s).gamemode = s.gamemode) ∧
      (∀ x y b, (h.pressed env x y b s).gamemode ≠ s.gamemode ↔
        (s.gamemode = Gamemode.TITLE ∧ s.title.playHovered = true) ∨
          s.gamemode = Gamemode.GAMEOVER) ∧
      (s.gamemode = Gamemode.TITLE →
        (∀ sym, h.keydown env sym s = s) ∧
        (∀ x y b, s.title.playHovered = false → h.pressed env x y b s = s) ∧
        (∀ x y b, s.title.playHovered = true →
          h.pressed env x y b s =
            game_setup env.setupTicks env.setupRand1 env.setupRand2
              { s with title := { s.title with playHovered := false } } ∧
          (h.pressed env x y b s).gamemode = Gamemode.INGAME ∧
          (h.pressed env x y b s).title.playHovered = false)) ∧
      (s.gamemode = Gamemode.INGAME →
        (∀ x y b, h.pressed env x y b s = s) ∧ (∀ x y, h.moved env x y s = s)) ∧
      (s.gamemode = Gamemode.GAMEOVER →
        (∀ sym, h.keydown env sym s = s) ∧ (∀ x y, h.moved env x y s = s) ∧
        (∀ x y b, h.pressed env x y b s = { s with gamemode := Gamemode.TITLE } ∧
          (h.pressed env x y b s).gamemode = Gamemode.TITLE)) := by
  cases hm : s.gamemode with
  | TITLE =>
    refine ⟨_, rfl, ?_, ?_, ?_, ?_, ?_, ?_, ?_, ?_, ?_⟩
    · intro sym
      simp only [handle_switch, handlers, hm]
    · intro x y
      simp only [handle_switch, handlers, hm]
    · intro x y b
      simp only [handle_switch, handlers, hm]
    · intro sym
      exact hm
    · intro x y
      rw [handler_title_moved_mode]
      exact hm
    · intro x y b
      cases hp : s.title.playHovered <;>
        simp [handler_title_pressed, hp, hm, game_setup]
    · intro _
      refine ⟨fun _ => rfl, ?_, ?_⟩
      · intro x y b hp
        simp [handler_title_pressed, hp]
      · intro x y b hp
        simp [handler_title_pressed, hp, game_setup]
    · intro h
      cases h
    · intro h
      cases h
  | INGAME =>
    refine ⟨_, rfl, ?_, ?_, ?_, ?_, ?_, ?_, ?_, ?_, ?_⟩
    · intro sym
      simp only [handle_switch, handlers, hm]
    · intro x y
      simp only [handle_switch, handlers, hm]
    · intro x y b
      simp only [handle_switch, handlers, hm]
    · intro sym
      rw [handler_game_keydown_mode]
      exact hm
    · intro x y
      exact hm
    · intro x y b
      simp [handler_dummy, hm]
    · intro h
      cases h
    · intro _
      exact ⟨fun _ _ _ => rfl, fun _ _ => rfl⟩
    · intro h
      cases h
  | GAMEOVER =>
    refine ⟨_, rfl, ?_, ?_, ?_, ?_, ?_, ?_, ?_, ?_, ?_⟩
    · intro sym
      simp only [handle_switch, handlers, hm]
    · intro x y
      simp only [handle_switch, handlers, hm]
    · intro x y b
      simp only [handle_switch, handlers, hm]
    · intro sym
      exact hm
    · intro x y
      exact hm
    · intro x y b
      simp [handler_gameover_pressed]
    · intro h
      cases h
    · intro h
      cases h
    · intro _
      exact ⟨fun _ => rfl, fun _ _ => rfl, fun _ _ _ => ⟨rfl, rfl⟩⟩
  | QUIT => exact absurd hm hq

theorem handlers_mode_transitions_witness :
    titleHovered.gamemode ≠ Gamemode.QUIT ∧
    ∃ h : Handlers, handlers titleHovered.gamemode = some h ∧
      ∀ x y b, (h.pressed quitEnv x y b titleHovered).gamemode = Gamemode.INGAME := by
  refine ⟨by decide, ?_⟩
  obtain ⟨h, hh, _, _, _, _, _, _, ht, _⟩ :=
    handlers_mode_transitions titleHovered quitEnv (by decide)
  exact ⟨h, hh, fun x y b => ((ht rfl).2.2 x y b rfl).2.1⟩

/-! ## Quit during a game -/

/-- C6 (the code at the failing input). From program start: the pointer moves over Play,
a click starts a game (clock 1, draws 0 and 1), and in the next iteration the quit event is
delivered while the clock reads 2001 and nothing is selected.  `handle_event` sets the mode
to `GAMEMODE_QUIT`, then `game_frame` still runs and sets it to `GAMEMODE_GAMEOVER`, so the
loop is not left.  The same happens from the mid-game state `round0`; with the right
selection instead, the iteration ends in `GAMEMODE_QUIT` but has changed the round state
(score 1, new colours, start 2001). -/
theorem quit_then_tick :
    main_loop [moveEnv, pressEnv, quitEnv] (main_init 1)
      = some { game_setup 1 0 1 (main_init 1) with gamemode := Gamemode.GAMEOVER } ∧
    handle_event true quitEnv quitEnv.events (game_setup 1 0 1 (main_init 1))
      = some { game_setup 1 0 1 (main_init 1) with gamemode := Gamemode.QUIT } ∧
    main_iteration quitEnv (game_setup 1 0 1 (main_init 1))
      = some { game_setup 1 0 1 (main_init 1) with gamemode := Gamemode.GAMEOVER } ∧
    main_iteration quitEnv (round0 SCOLOR_NONE)
      = some { round0 SCOLOR_NONE with gamemode := Gamemode.GAMEOVER } ∧
    main_iteration quitEnv (round0 SCOLOR_MAGENTA)
      = some { round0 SCOLOR_MAGENTA with
          gamemode := Gamemode.QUIT
          game := { start := 2001, step := 0, score := 1, background := SCOLOR_MAGENTA,
                    current := SCOLOR_YELLOW, choice := SCOLOR_NONE } } := by
  have h3 : main_iteration quitEnv (game_setup 1 0 1 (main_init 1))
      = some { game_setup 1 0 1 (main_init 1) with gamemode := Gamemode.GAMEOVER } := rfl
  refine ⟨?_, rfl, h3, rfl, rfl⟩
  have q1 : (main_init 1).gamemode ≠ Gamemode.QUIT := by decide
  have q2 : titleHovered.gamemode ≠ Gamemode.QUIT := by decide
  have q3 : (game_setup 1 0 1 (main_init 1)).gamemode ≠ Gamemode.QUIT := by decide
  simp only [main_loop, q1, q2, q3, if_false, main_iteration_move, main_iteration_press, h3,
    Option.some_bind]

/-! ## Distribution of the target colour -/

theorem game_setup_current (ticks rand1 rand2 : Nat) (s : Scolor) :
    (game_setup ticks rand1 rand2 s).game.current =
      if ((rand2 % 3 : Nat) : Int) = ((rand1 % 3 : Nat) : Int)
      then ((((rand2 % 3 : Nat) : Int) + 2) % 3) else ((rand2 % 3 : Nat) : Int) := by
  simp only [game_setup, cMod_three]
  split
  · rw [cMod_nonneg _ (by omega)]
  · rfl

theorem game_frame_current (s : Scolor) (currentTime ticks2 rnd : Nat)
    (hd : sub32 currentTime s.game.start ≥ roundDuration s.game.score)
    (hc : s.game.choice = s.game.current) :
    (game_frame currentTime ticks2 rnd s).game.current =
      if ((rnd % 3 : Nat) : Int) = s.game.current
      then ((((rnd % 3 : Nat) : Int) + 1) % 3) else ((rnd % 3 : Nat) : Int) := by
  rw [game_frame_resolved_ok s currentTime ticks2 rnd hd hc]
  simp only [cMod_three]
  split
  · rw [cMod_nonneg _ (by omega)]
  · rfl

/-- C9 (amended). Choice of the target colour: with background `b` and the draw uniform
over the residues 0, 1, 2, the target is always one of the two colours other than `b`, but
not uniformly.  In `game_setup` two of the three residues give `(b + 2) % 3` and one gives
`(b + 1) % 3`; in the successful-resolution branch of `game_frame` two give `(b + 1) % 3`
and one gives `(b + 2) % 3`.  No residue gives `b`. -/
theorem target_colour_distribution :
    (∀ (s : Scolor) (ticks rand1 : Nat),
      setupCount s ticks rand1 ((((rand1 % 3 : Nat) : Int) + 2) % 3) = 2 ∧
      setupCount s ticks rand1 ((((rand1 % 3 : Nat) : Int) + 1) % 3) = 1 ∧
      setupCount s ticks rand1 ((rand1 % 3 : Nat) : Int) = 0) ∧
    (∀ (s : Scolor) (currentTime ticks2 : Nat),
      sub32 currentTime s.game.start ≥ roundDuration s.game.score →
      s.game.choice = s.game.current →
      (s.game.current = 0 ∨ s.game.current = 1 ∨ s.game.current = 2) →
      frameCount s currentTime ticks2 ((s.game.current + 1) % 3) = 2 ∧
      frameCount s currentTime ticks2 ((s.game.current + 2) % 3) = 1 ∧
      frameCount s currentTime ticks2 s.game.current = 0) := by
  have hr : List.range 3 = [0, 1, 2] := rfl
  constructor
  · intro s ticks rand1
    have h3 : rand1 % 3 = 0 ∨ rand1 % 3 = 1 ∨ rand1 % 3 = 2 := by omega
    simp only [setupCount, hr, game_setup_current]
    rcases h3 with h | h | h <;> rw [h] <;> decide
  · intro s currentTime ticks2 hd hc h3
    simp only [frameCount, hr, game_frame_current s currentTime ticks2 _ hd hc]
    rcases h3 with h | h | h <;> rw [h] <;> decide

theorem target_colour_distribution_witness :
    frameCount (round0 SCOLOR_MAGENTA) 2001 2001
      (((round0 SCOLOR_MAGENTA).game.current + 1) % 3) = 2 ∧
    frameCount (round0 SCOLOR_MAGENTA) 2001 2001
      (((round0 SCOLOR_MAGENTA).game.current + 2) % 3) = 1 ∧
    frameCount (round0 SCOLOR_MAGENTA) 2001 2001 (round0 SCOLOR_MAGENTA).game.current = 0 :=
  target_colour_distribution.2 (round0 SCOLOR_MAGENTA) 2001 2001
    (by decide) (by decide) (by decide)

/-- C9 (counterexample). With background yellow (first draw 0) in `game_setup`, one residue
of the second draw gives magenta and two give green; after a successful resolution with new
background magenta, one residue gives yellow and two give green.  The two remaining colours
do not receive equally many draws. -/
theorem target_colour_not_uniform :
    (game_setup 0 0 0 (main_init 1)).game.background = SCOLOR_YELLOW ∧
    setupCount (main_init 1) 0 0 SCOLOR_MAGENTA = 1 ∧
    setupCount (main_init 1) 0 0 SCOLOR_GREEN = 2 ∧
    setupCount (main_init 1) 0 0 SCOLOR_MAGENTA ≠ setupCount (main_init 1) 0 0 SCOLOR_GREEN ∧
    (game_frame 2001 2001 0 (round0 SCOLOR_MAGENTA)).game.background = SCOLOR_MAGENTA ∧
    frameCount (round0 SCOLOR_MAGENTA) 2001 2001 SCOLOR_YELLOW = 1 ∧
    frameCount (round0 SCOLOR_MAGENTA) 2001 2001 SCOLOR_GREEN = 2 ∧
    frameCount (round0 SCOLOR_MAGENTA) 2001 2001 SCOLOR_YELLOW
      ≠ frameCount (round0 SCOLOR_MAGENTA) 2001 2001 SCOLOR_GREEN := by
  decide

/-! ## Consecutive wins -/

theorem handler_game_keydown_sameRound (keysym : Int) (s : Scolor) :
    sameRound s (handler_game_keydown keysym s) := by
  unfold handler_game_keydown sameRound
  split_ifs <;> exact ⟨rfl, rfl, rfl, rfl, rfl⟩

theorem run_score_mode (acts : List Action) :
    ∀ s : Scolor, noFailure acts s = true → 0 ≤ s.game.score →
      s.game.score + wins acts s ≤ 2147483647 →
      (run acts s).game.score = s.game.score + wins acts s ∧
      (run acts s).gamemode = s.gamemode := by
  induction acts with
  | nil =>
    intro s _ _ _
    simp [run, wins]
  | cons a rest ih =>
    intro s hnf h0 hle
    simp only [noFailure, Bool.and_eq_true, Bool.not_eq_true'] at hnf
    obtain ⟨hf, hrest⟩ := hnf
    simp only [run, wins] at hle ⊢
    cases a with
    | frame t1 t2 r =>
      simp only [Action.apply] at hrest hle ⊢
      by_cases hd : sub32 t1 s.game.start ≥ roundDuration s.game.score
      · by_cases hc : s.game.choice = s.game.current
        · have hs : (Action.frame t1 t2 r).succeeds s = true := by
            simp [Action.succeeds, hd, hc]
          have happ := game_frame_resolved_ok s t1 t2 r hd hc
          rw [hs] at hle ⊢
          simp only [if_true] at hle ⊢
          have hsc : (game_frame t1 t2 r s).game.score = s.game.score + 1 := by
            rw [happ]
            exact wrapInt_of_range _ (by omega) (by omega)
          have hm : (game_frame t1 t2 r s).gamemode = s.gamemode := by
            rw [happ]
          have h := ih _ hrest (by omega) (by omega)
          rw [hsc, hm] at h
          refine ⟨?_, h.2⟩
          rw [h.1]
          push_cast
          omega
        · have : (Action.frame t1 t2 r).fails s = true := by
            simp [Action.fails, hd, hc]
          rw [this] at hf
          cases hf
      · have hs : (Action.frame t1 t2 r).succeeds s = false := by
          simp [Action.succeeds, hd]
        have happ := game_frame_running s t1 t2 r (Nat.not_le.mp hd)
        rw [hs] at hle ⊢
        simp only [Bool.false_eq_true, if_false, Nat.zero_add] at hle ⊢
        have hsc : (game_frame t1 t2 r s).game.score = s.game.score := by
          rw [happ]
        have hm : (game_frame t1 t2 r s).gamemode = s.gamemode := by
          rw [happ]
        have h := ih _ hrest (by omega) (by omega)
        rw [hsc, hm] at h
        exact h
    | key sym =>
      simp only [Action.apply, Action.succeeds, Bool.false_eq_true, if_false,
        Nat.zero_add] at hrest hle ⊢
      have hsc : (handler_game_keydown sym s).game.score = s.game.score :=
        (handler_game_keydown_sameRound sym s).2.2.1
      have h := ih _ hrest (by omega) (by omega)
      rw [hsc, handler_game_keydown_mode] at h
      exact h

theorem handler_game_keydown_keyFor (s : Scolor)
    (hc : s.game.current = 0 ∨ s.game.current = 1 ∨ s.game.current = 2) :
    handler_game_keydown (keyFor s.game.current) s =
      { s with game := { s.game with choice := s.game.current } } := by
  rcases hc with h | h | h <;> rw [h] <;>
    simp [handler_game_keydown, keyFor, KEYSYM_LEFT, KEYSYM_DOWN, KEYSYM_RIGHT,
      SCOLOR_YELLOW, SCOLOR_MAGENTA, SCOLOR_GREEN]

theorem sub32_add32_self (start D : Nat) (hD : D < 4294967296) :
    sub32 (add32 start D) start = D := by
  unfold sub32 add32
  omega

theorem win_round (s : Scolor) (hc : coloursOk s) :
    (Action.frame (add32 s.game.start (roundDuration s.game.score))
        (add32 s.game.start (roundDuration s.game.score)) 0).succeeds
      ((Action.key (keyFor s.game.current)).apply s) = true ∧
    (Action.frame (add32 s.game.start (roundDuration s.game.score))
        (add32 s.game.start (roundDuration s.game.score)) 0).fails
      ((Action.key (keyFor s.game.current)).apply s) = false ∧
    coloursOk ((Action.frame (add32 s.game.start (roundDuration s.game.score))
        (add32 s.game.start (roundDuration s.game.score)) 0).apply
      ((Action.key (keyFor s.game.current)).apply s)) := by
  have hlt := roundDuration_lt s.game.score
  have h1 := handler_game_keydown_keyFor s hc.2.1
  have hsame := handler_game_keydown_sameRound (keyFor s.game.current) s
  have hst : (handler_game_keydown (keyFor s.game.current) s).game.start = s.game.start :=
    hsame.1
  have hsc : (handler_game_keydown (keyFor s.game.current) s).game.score = s.game.score :=
    hsame.2.2.1
  have hch : (handler_game_keydown (keyFor s.game.current) s).game.choice
      = (handler_game_keydown (keyFor s.game.current) s).game.current := by
    rw [h1]
  have hd : sub32 (add32 s.game.start (roundDuration s.game.score))
      (handler_game_keydown (keyFor s.game.current) s).game.start
      ≥ roundDuration (handler_game_keydown (keyFor s.game.current) s).game.score := by
    rw [hst, hsc, sub32_add32_self _ _ (by omega)]
  refine ⟨?_, ?_, ?_⟩
  · simp only [Action.succeeds, Action.apply, Bool.and_eq_true, decide_eq_true_eq]
    exact ⟨hd, hch⟩
  · simp only [Action.fails, Action.apply, Bool.and_eq_false_iff, decide_eq_false_iff_not]
    exact Or.inr (fun h => h hch)
  · simp only [Action.apply]
    exact game_frame_coloursOk _ _ _ _ (coloursOk_sameRound _ _ hsame hc)

theorem winActions_spec (n : Nat) :
    ∀ s : Scolor, coloursOk s →
      noFailure (winActions n s) s = true ∧ wins (winActions n s) s = n := by
  induction n with
  | zero =>
    intro s _
    exact ⟨rfl, rfl⟩
  | succ n ih =>
    intro s hc
    obtain ⟨hs, hf, hc2⟩ := win_round s hc
    have ih2 := ih _ hc2
    have e1 : winActions (n + 1) s =
        Action.key (keyFor s.game.current) ::
          Action.frame (add32 s.game.start (roundDuration s.game.score))
            (add32 s.game.start (roundDuration s.game.score)) 0 ::
          winActions n ((Action.frame (add32 s.game.start (roundDuration s.game.score))
            (add32 s.game.start (roundDuration s.game.score)) 0).apply
              ((Action.key (keyFor s.game.current)).apply s)) := rfl
    have k1 : (Action.key (keyFor s.game.current)).fails s = false := rfl
    have k2 : (Action.key (keyFor s.game.current)).succeeds s = false := rfl
    rw [e1]
    simp only [noFailure, wins, hs, hf, k1, k2, ih2.1, ih2.2, Bool.not_false, Bool.and_self,
      Bool.false_eq_true, if_false, if_true, true_and]
    omega

/-! ## The wrapped model and the C rule agree inside the range of `int` -/

theorem roundDuration_checked_def (score : Int) (h1 : inInt (score * 100))
    (h2 : inInt (2000 - score * 100)) :
    roundDuration_checked score = some (roundDuration score) := by
  unfold roundDuration_checked roundDuration
  rw [if_pos ⟨h1, h2⟩, wrapInt_of_range _ h1.1 h1.2, wrapInt_of_range _ h2.1 h2.2]

theorem roundDuration_checked_some (score : Int) (D : Nat)
    (h : roundDuration_checked score = some D) :
    inInt (score * 100) ∧ inInt (2000 - score * 100) ∧ D = roundDuration score := by
  by_cases hr : inInt (score * 100) ∧ inInt (2000 - score * 100)
  · rw [roundDuration_checked_def score hr.1 hr.2] at h
    exact ⟨hr.1, hr.2, (Option.some.inj h).symm⟩
  · unfold roundDuration_checked at h
    rw [if_neg hr] at h
    cases h

theorem roundDuration_checked_none (score : Int) (h : ¬ inInt (score * 100)) :
    roundDuration_checked score = none := by
  unfold roundDuration_checked
  rw [if_neg (fun hr => h hr.1)]

theorem game_frame_checked_def (currentTime ticks2 rnd : Nat) (s : Scolor)
    (h1 : inInt (s.game.score * 100)) (h2 : inInt (2000 - s.game.score * 100)) :
    game_frame_checked currentTime ticks2 rnd s = some (game_frame currentTime ticks2 rnd s) := by
  have h3 : inInt (s.game.score + 1) := by
    unfold inInt at h1 ⊢
    omega
  unfold game_frame_checked game_frame
  rw [roundDuration_checked_def _ h1 h2]
  simp only [wrapInt_of_range _ h3.1 h3.2, if_pos h3]
  split_ifs <;> rfl

theorem game_frame_checked_some (currentTime ticks2 rnd : Nat) (s s1 : Scolor)
    (h : game_frame_checked currentTime ticks2 rnd s = some s1) :
    game_frame currentTime ticks2 rnd s = s1 := by
  cases hD : roundDuration_checked s.game.score with
  | none =>
    unfold game_frame_checked at h
    rw [hD] at h
    cases h
  | some D =>
    obtain ⟨h1, h2, _⟩ := roundDuration_checked_some _ _ hD
    rw [game_frame_checked_def currentTime ticks2 rnd s h1 h2] at h
    exact Option.some.inj h

theorem game_frame_checked_none (currentTime ticks2 rnd : Nat) (s : Scolor)
    (h : ¬ inInt (s.game.score * 100)) :
    game_frame_checked currentTime ticks2 rnd s = none := by
  unfold game_frame_checked
  rw [roundDuration_checked_none _ h]

theorem main_iteration_checked_some (env : Env) (s s1 : Scolor)
    (h : main_iteration_checked env s = some s1) : main_iteration env s = some s1 := by
  unfold main_iteration_checked at h
  unfold main_iteration
  cases hm : s.gamemode <;> simp only [hm] at h ⊢
  · exact h
  · simp only [Option.bind_eq_some] at h
    obtain ⟨s2, h2, h3⟩ := h
    rw [h2, Option.map_some', game_frame_checked_some _ _ _ _ _ h3]
  · exact h
  · exact h

theorem main_loop_checked_some (envs : List Env) :
    ∀ s s1 : Scolor, main_loop_checked envs s = some s1 → main_loop envs s = some s1 := by
  induction envs with
  | nil =>
    intro s s1 h
    exact h
  | cons env rest ih =>
    intro s s1 h
    simp only [main_loop_checked] at h
    simp only [main_loop]
    split_ifs at h ⊢ with hq
    · exact h
    · simp only [Option.bind_eq_some] at h ⊢
      obtain ⟨s2, h2, h3⟩ := h
      exact ⟨s2, main_iteration_checked_some env s s2 h2, ih s2 s1 h3⟩

/-! ## Consecutive wins inside the range of `int` -/

theorem inInt_of_score (score : Int) (h0 : 0 ≤ score) (h1 : score ≤ 21474836) :
    inInt (score * 100) ∧ inInt (2000 - score * 100) := by
  unfold inInt
  omega

theorem run_checked_defined (acts : List Action) :
    ∀ s : Scolor, noFailure acts s = true → 0 ≤ s.game.score →
      s.game.score + wins acts s ≤ 21474836 →
      run_checked acts s = some (run acts s) := by
  induction acts with
  | nil =>
    intro s _ _ _
    rfl
  | cons a rest ih =>
    intro s hnf h0 hle
    have hrest : noFailure rest (a.apply s) = true := by
      simp only [noFailure, Bool.and_eq_true] at hnf
      exact hnf.2
    have hone := run_score_mode [a] s
      (by simp only [noFailure, Bool.and_eq_true] at hnf ⊢; exact ⟨hnf.1, trivial⟩) h0
      (by simp only [wins] at hle ⊢; omega)
    simp only [run, wins, Nat.add_zero] at hone
    simp only [wins] at hle
    have hnext := ih (a.apply s) hrest (by omega) (by omega)
    simp only [run_checked, run]
    cases a with
    | frame t1 t2 r =>
      have hr := inInt_of_score s.game.score h0 (by omega)
      simp only [Action.apply_checked, Action.apply] at hnext ⊢
      rw [game_frame_checked_def t1 t2 r s hr.1 hr.2, Option.some_bind]
      exact hnext
    | key sym =>
      simp only [Action.apply_checked, Action.apply, Option.some_bind] at hnext ⊢
      exact hnext

/-- C8 (amended). Consecutive wins: for every `k` with `100 * k` in the range of a C `int`
(`k ≤ 21474836`), starting from `game_setup` (any draws, any start time) and applying any
sequence of `game_frame` steps and key-down selections with exactly `k` successful
resolutions and no failed one, no `int` operation overflows on the way, the score is `k`,
the mode is InGame, and the duration line 94 computes for the next round is
`max (2000 - 100 * k) 500`. -/
theorem consecutive_wins (k : Nat) (hk : k ≤ 21474836) (ticks rand1 rand2 : Nat) (s : Scolor)
    (acts : List Action)
    (hnf : noFailure acts (game_setup ticks rand1 rand2 s) = true)
    (hw : wins acts (game_setup ticks rand1 rand2 s) = k) :
    ∃ (final : Scolor) (D : Nat),
      run_checked acts (game_setup ticks rand1 rand2 s) = some final ∧
      final.game.score = k ∧
      final.gamemode = Gamemode.INGAME ∧
      roundDuration_checked final.game.score = some D ∧
      (D : Int) = max (2000 - 100 * (k : Int)) 500 := by
  have h0 : (game_setup ticks rand1 rand2 s).game.score = 0 := rfl
  have hm : (game_setup ticks rand1 rand2 s).gamemode = Gamemode.INGAME := rfl
  have h := run_score_mode acts (game_setup ticks rand1 rand2 s) hnf (by omega) (by omega)
  have hdef := run_checked_defined acts (game_setup ticks rand1 rand2 s) hnf (by omega)
    (by omega)
  rw [h0, hm, hw] at h
  have hs : (run acts (game_setup ticks rand1 rand2 s)).game.score = (k : Int) := by
    rw [h.1]
    omega
  have hr := inInt_of_score (k : Int) (by omega) (by omega)
  refine ⟨run acts (game_setup ticks rand1 rand2 s), roundDuration (k : Int), hdef, hs, h.2,
    ?_, ?_⟩
  · rw [hs]
    exact roundDuration_checked_def _ hr.1 hr.2
  · exact roundDuration_of_range k (by omega) (by omega)

theorem consecutive_wins_witness :
    ∃ (final : Scolor) (D : Nat),
      run_checked [Action.key KEYSYM_DOWN, Action.frame 2001 2001 0]
        (game_setup 1 0 1 (main_init 1)) = some final ∧
      final.game.score = ((1 : Nat) : Int) ∧
      final.gamemode = Gamemode.INGAME ∧
      roundDuration_checked final.game.score = some D ∧
      (D : Int) = max (2000 - 100 * ((1 : Nat) : Int)) 500 :=
  consecutive_wins 1 (by decide) 1 0 1 (main_init 1)
    [Action.key KEYSYM_DOWN, Action.frame 2001 2001 0] (by decide) (by decide)

theorem win_round_state (s : Scolor) (hc : coloursOk s) (h1 : inInt (s.game.score + 1)) :
    ((Action.frame (add32 s.game.start (roundDuration s.game.score))
        (add32 s.game.start (roundDuration s.game.score)) 0).apply
      ((Action.key (keyFor s.game.current)).apply s)).game.score = s.game.score + 1 ∧
    ((Action.frame (add32 s.game.start (roundDuration s.game.score))
        (add32 s.game.start (roundDuration s.game.score)) 0).apply
      ((Action.key (keyFor s.game.current)).apply s)).gamemode = s.gamemode := by
  obtain ⟨hs, _, _⟩ := win_round s hc
  have hsame := handler_game_keydown_sameRound (keyFor s.game.current) s
  have hmode := handler_game_keydown_mode (keyFor s.game.current) s
  simp only [Action.succeeds, Action.apply, Bool.and_eq_true, decide_eq_true_eq] at hs
  simp only [Action.apply]
  rw [game_frame_resolved_ok _ _ _ _ hs.1 hs.2]
  refine ⟨?_, hmode⟩
  show wrapInt ((handler_game_keydown (keyFor s.game.current) s).game.score + 1)
    = s.game.score + 1
  rw [hsame.2.2.1]
  exact wrapInt_of_range _ h1.1 h1.2

theorem winActions_checked (n : Nat) :
    ∀ s : Scolor, coloursOk s → 0 ≤ s.game.score → s.game.score + n ≤ 21474837 →
      run_checked (winActions n s) s = some (run (winActions n s) s) ∧
      (run (winActions n s) s).game.score = s.game.score + n ∧
      (run (winActions n s) s).gamemode = s.gamemode := by
  induction n with
  | zero =>
    intro s _ _ _
    exact ⟨rfl, by simp [winActions, run], rfl⟩
  | succ n ih =>
    intro s hc h0 hle
    obtain ⟨_, _, hc2⟩ := win_round s hc
    obtain ⟨hsc, hmd⟩ := win_round_state s hc (by unfold inInt; omega)
    obtain ⟨i1, i2, i3⟩ := ih _ hc2 (by omega) (by omega)
    have hr := inInt_of_score s.game.score h0 (by omega)
    have hsame := handler_game_keydown_sameRound (keyFor s.game.current) s
    have e1 : winActions (n + 1) s =
        Action.key (keyFor s.game.current) ::
          Action.frame (add32 s.game.start (roundDuration s.game.score))
            (add32 s.game.start (roundDuration s.game.score)) 0 ::
          winActions n ((Action.frame (add32 s.game.start (roundDuration s.game.score))
            (add32 s.game.start (roundDuration s.game.score)) 0).apply
              ((Action.key (keyFor s.game.current)).apply s)) := rfl
    rw [e1]
    refine ⟨?_, ?_, ?_⟩
    · simp only [run_checked, run, Action.apply_checked, Option.some_bind]
      rw [game_frame_checked_def _ _ _ _ (by rw [hsame.2.2.1]; exact hr.1)
        (by rw [hsame.2.2.1]; exact hr.2), Option.some_bind]
      exact i1
    · simp only [run]
      rw [i2, hsc]
      push_cast
      omega
    · simp only [run]
      rw [i3, hmd]

/-- C8 (counterexample). A perfect game of 21474837 rounds started by `game_setup`: every
round is played at a score of at most 21474836, so no `int` operation overflows on the way
and the deadlines are those of the code; no resolution fails, 21474837 succeed, the score is
21474837 and the mode InGame.  For the next round line 94 multiplies 21474837 by 100, which
does not fit an `int`: the code does not determine a duration, where the claim says
`max (2000 - 100 * 21474837) 500 = 500`. -/
theorem perfect_game_leaves_int :
    freshGame = game_setup 1 0 1 (main_init 1) ∧
    run_checked (winActions 21474837 freshGame) freshGame
      = some (run (winActions 21474837 freshGame) freshGame) ∧
    noFailure (winActions 21474837 freshGame) freshGame = true ∧
    wins (winActions 21474837 freshGame) freshGame = 21474837 ∧
    (run (winActions 21474837 freshGame) freshGame).game.score = 21474837 ∧
    (run (winActions 21474837 freshGame) freshGame).gamemode = Gamemode.INGAME ∧
    ¬ inInt ((run (winActions 21474837 freshGame) freshGame).game.score * 100) ∧
    roundDuration_checked (run (winActions 21474837 freshGame) freshGame).game.score = none ∧
    roundDuration_checked (run (winActions 21474837 freshGame) freshGame).game.score
      ≠ some 500 ∧
    max (2000 - 100 * 21474837) 500 = (500 : Int) := by
  have hc : coloursOk freshGame := game_setup_coloursOk 1 0 1 (main_init 1)
  have h0 : freshGame.game.score = 0 := rfl
  have hm : freshGame.gamemode = Gamemode.INGAME := rfl
  obtain ⟨hnf, hw⟩ := winActions_spec 21474837 freshGame hc
  obtain ⟨hrun, hsc, hmode⟩ := winActions_checked 21474837 freshGame hc (by rw [h0])
    (by rw [h0]; decide)
  rw [h0] at hsc
  rw [hm] at hmode
  have hs : (run (winActions 21474837 freshGame) freshGame).game.score = 21474837 := by
    rw [hsc]
    decide
  have hout : ¬ inInt ((run (winActions 21474837 freshGame) freshGame).game.score * 100) := by
    rw [hs]
    decide
  have hnone := roundDuration_checked_none _ hout
  refine ⟨rfl, hrun, hnf, hw, hs, hmode, hout, hnone, ?_, by decide⟩
  rw [hnone]
  exact fun h => by cases h


/-! ## Progress inside the range of `int` -/

theorem perfectEnvs_loop (n : Nat) :
    ∀ s : Scolor, s.gamemode = Gamemode.INGAME → coloursOk s → 0 ≤ s.game.score →
      s.game.score + n ≤ 21474837 →
      main_loop_checked (perfectEnvs n s) s = some (run (winActions n s) s) := by
  induction n with
  | zero =>
    intro s _ _ _ _
    rfl
  | succ n ih =>
    intro s hm hc h0 hle
    obtain ⟨_, _, hc2⟩ := win_round s hc
    obtain ⟨hsc, hmd⟩ := win_round_state s hc (by unfold inInt; omega)
    have hr := inInt_of_score s.game.score h0 (by omega)
    have hsame := handler_game_keydown_sameRound (keyFor s.game.current) s
    have e1 : winActions (n + 1) s =
        Action.key (keyFor s.game.current) ::
          Action.frame (add32 s.game.start (roundDuration s.game.score))
            (add32 s.game.start (roundDuration s.game.score)) 0 ::
          winActions n ((Action.frame (add32 s.game.start (roundDuration s.game.score))
            (add32 s.game.start (roundDuration s.game.score)) 0).apply
              ((Action.key (keyFor s.game.current)).apply s)) := rfl
    have e2 : perfectEnvs (n + 1) s =
        perfectEnv s ::
          perfectEnvs n ((Action.frame (add32 s.game.start (roundDuration s.game.score))
            (add32 s.game.start (roundDuration s.game.score)) 0).apply
              ((Action.key (keyFor s.game.current)).apply s)) := rfl
    have hq : s.gamemode ≠ Gamemode.QUIT := by
      rw [hm]
      decide
    have hit : main_iteration_checked (perfectEnv s) s =
        some ((Action.frame (add32 s.game.start (roundDuration s.game.score))
          (add32 s.game.start (roundDuration s.game.score)) 0).apply
            ((Action.key (keyFor s.game.current)).apply s)) := by
      simp only [main_iteration_checked, hm, perfectEnv, handle_event, handle_switch, handlers,
        Option.some_bind, Action.apply]
      exact game_frame_checked_def _ _ _ _ (by rw [hsame.2.2.1]; exact hr.1)
        (by rw [hsame.2.2.1]; exact hr.2)
    rw [e1, e2]
    simp only [main_loop_checked, run, if_neg hq, hit, Option.some_bind]
    exact ih _ (by rw [hmd, hm]) hc2 (by omega) (by omega)

theorem reachableChecked_perfect (n : Nat) (hn : n ≤ 21474837) :
    ReachableChecked (run (winActions n freshGame) freshGame) := by
  refine ⟨1, moveEnv :: pressEnv :: perfectEnvs n freshGame, ?_⟩
  have q1 : (main_init 1).gamemode ≠ Gamemode.QUIT := by decide
  have q2 : titleHovered.gamemode ≠ Gamemode.QUIT := by decide
  have m1 : main_iteration_checked moveEnv (main_init 1) = some titleHovered :=
    main_iteration_move
  have m2 : main_iteration_checked pressEnv titleHovered = some freshGame := rfl
  have hc : coloursOk freshGame := game_setup_coloursOk 1 0 1 (main_init 1)
  have h0 : freshGame.game.score = 0 := rfl
  simp only [main_loop_checked, if_neg q1, if_neg q2, m1, m2, Option.some_bind]
  exact perfectEnvs_loop n freshGame rfl hc (by rw [h0]) (by rw [h0]; omega)

/-- C10 (amended). Progress stays a normalised fraction as long as line 94 stays in the
range of `int`.  For every `Uint32` duration `D`, while the elapsed time
`(now - start) mod 2^32` is below `D`, the numerator `(start + D - now) mod 2^32` is
`D - elapsed`, whatever has wrapped.  For every score for which line 94 yields a duration
`D` without overflow and every such `now`, `game_frame` returns and
the progress it writes (as an exact rational) is that number over `D`, lies in `(0, 1]`, is 1
when `now = start`, and is strictly smaller for a larger elapsed time; a successful
resolution writes 0, and so does `game_setup`.  In every state reached by a run without
`int` overflow the progress is in `[0, 1]`. -/
theorem progress_fraction :
    (∀ (start now D : Nat), D < 4294967296 → sub32 now start < D →
      sub32 (add32 start D) now = D - sub32 now start) ∧
    (∀ (start now : Nat) (score : Int) (D : Nat), roundDuration_checked score = some D →
      sub32 now start < D → sub32 (add32 start D) now = D - sub32 now start) ∧
    (∀ (s : Scolor) (now ticks2 rnd D : Nat), roundDuration_checked s.game.score = some D →
      sub32 now s.game.start < D →
      ∃ s1 : Scolor, game_frame_checked now ticks2 rnd s = some s1 ∧
        s1.game.step = ((D - sub32 now s.game.start : Nat) : ℚ) / (D : ℚ) ∧
        0 < s1.game.step ∧ s1.game.step ≤ 1) ∧
    (∀ (s : Scolor) (ticks2 rnd D : Nat), roundDuration_checked s.game.score = some D →
      ∃ s1 : Scolor, game_frame_checked s.game.start ticks2 rnd s = some s1 ∧
        s1.game.step = 1) ∧
    (∀ (s : Scolor) (now1 now2 ticks2 rnd D : Nat),
      roundDuration_checked s.game.score = some D →
      sub32 now1 s.game.start < sub32 now2 s.game.start →
      sub32 now2 s.game.start < D →
      ∃ s1 s2 : Scolor, game_frame_checked now1 ticks2 rnd s = some s1 ∧
        game_frame_checked now2 ticks2 rnd s = some s2 ∧
        s2.game.step < s1.game.step) ∧
    (∀ (ticks rand1 rand2 : Nat) (s : Scolor), (game_setup ticks rand1 rand2 s).game.step = 0) ∧
    (∀ (s : Scolor) (now ticks2 rnd D : Nat), roundDuration_checked s.game.score = some D →
      sub32 now s.game.start ≥ D → s.game.choice = s.game.current →
      ∃ s1 : Scolor, game_frame_checked now ticks2 rnd s = some s1 ∧ s1.game.step = 0) ∧
    (∀ s : Scolor, ReachableChecked s → 0 ≤ s.game.step ∧ s.game.step ≤ 1) := by
  have hpos : ∀ score : Int, (0 : ℚ) < (roundDuration score : ℚ) := by
    intro score
    have hge := roundDuration_ge score
    have : 0 < roundDuration score := by omega
    exact_mod_cast this
  refine ⟨?_, ?_, ?_, ?_, ?_, ?_, ?_, ?_⟩
  · intro start now D hD h
    exact numerator_eq start now D hD h
  · intro start now score D hD h
    obtain ⟨_, _, rfl⟩ := roundDuration_checked_some _ _ hD
    have hlt := roundDuration_lt score
    exact numerator_eq start now _ (by omega) h
  · intro s now ticks2 rnd D hD hd
    obtain ⟨h1, h2, rfl⟩ := roundDuration_checked_some _ _ hD
    refine ⟨_, game_frame_checked_def now ticks2 rnd s h1 h2, ?_⟩
    rw [game_frame_step_running s now ticks2 rnd hd]
    refine ⟨rfl, ?_, ?_⟩
    · apply div_pos _ (hpos _)
      have : 0 < roundDuration s.game.score - sub32 now s.game.start := by omega
      exact_mod_cast this
    · rw [div_le_one (hpos _)]
      exact_mod_cast Nat.sub_le _ _
  · intro s ticks2 rnd D hD
    obtain ⟨h1, h2, rfl⟩ := roundDuration_checked_some _ _ hD
    refine ⟨_, game_frame_checked_def _ ticks2 rnd s h1 h2, ?_⟩
    have hge := roundDuration_ge s.game.score
    have hd : sub32 s.game.start s.game.start < roundDuration s.game.score := by
      rw [sub32_self]
      omega
    rw [game_frame_step_running s _ ticks2 rnd hd, sub32_self, Nat.sub_zero]
    exact div_self (hpos _).ne'
  · intro s now1 now2 ticks2 rnd D hD h12 h2
    obtain ⟨i1, i2, rfl⟩ := roundDuration_checked_some _ _ hD
    refine ⟨_, _, game_frame_checked_def now1 ticks2 rnd s i1 i2,
      game_frame_checked_def now2 ticks2 rnd s i1 i2, ?_⟩
    rw [game_frame_step_running s now1 ticks2 rnd (by omega),
      game_frame_step_running s now2 ticks2 rnd h2]
    apply div_lt_div_of_pos_right _ (hpos _)
    have : roundDuration s.game.score - sub32 now2 s.game.start
        < roundDuration s.game.score - sub32 now1 s.game.start := by omega
    exact_mod_cast this
  · intro ticks rand1 rand2 s
    rfl
  · intro s now ticks2 rnd D hD hd hc
    obtain ⟨h1, h2, rfl⟩ := roundDuration_checked_some _ _ hD
    refine ⟨_, game_frame_checked_def now ticks2 rnd s h1 h2, ?_⟩
    rw [game_frame_resolved_ok s now ticks2 rnd hd hc]
  · intro s ⟨windowID, envs, h⟩
    have h' := main_loop_checked_some envs (main_init windowID) s h
    refine (main_loop_round (fun s => 0 ≤ s.game.step ∧ s.game.step ≤ 1) ?_ ?_ ?_
      envs (main_init windowID) s h').1 ?_
    · intro t r1 r2 s0
      exact ⟨le_refl _, zero_le_one⟩
    · intro t1 t2 r s0 hs
      exact game_frame_step_range t1 t2 r s0 hs
    · intro s0 s1 hsame hs
      obtain ⟨_, hst, _⟩ := hsame
      simp only [hst]
      exact hs
    · exact ⟨le_refl _, zero_le_one⟩

theorem progress_fraction_witness :
    (∃ s1 : Scolor, game_frame_checked 1000 1000 0 (round0 SCOLOR_MAGENTA) = some s1 ∧
      s1.game.step = ((2000 - sub32 1000 (round0 SCOLOR_MAGENTA).game.start : Nat) : ℚ)
        / ((2000 : Nat) : ℚ) ∧
      0 < s1.game.step ∧ s1.game.step ≤ 1) ∧
    sub32 (add32 4294967000 2000) 500 = 2000 - sub32 500 4294967000 ∧
    (0 ≤ freshGame.game.step ∧ freshGame.game.step ≤ 1) :=
  ⟨progress_fraction.2.2.1 (round0 SCOLOR_MAGENTA) 1000 1000 0 2000 (by decide) (by decide),
   progress_fraction.2.1 4294967000 500 0 2000 (by decide) (by decide),
   progress_fraction.2.2.2.2.2.2.2 freshGame (reachableChecked_perfect 0 (by decide))⟩

/-- C10 (counterexample). The state after a perfect game of 21474837 rounds is reached from
program start without any `int` overflow and has score 21474837.  At the next tick line 94
multiplies that score by 100, which does not fit an `int`: `game_frame` has no defined
result there, so the code does not determine a progress in `[0, 1]`. -/
theorem progress_undefined_past_int :
    ReachableChecked (run (winActions 21474837 freshGame) freshGame) ∧
    (run (winActions 21474837 freshGame) freshGame).game.score = 21474837 ∧
    (run (winActions 21474837 freshGame) freshGame).gamemode = Gamemode.INGAME ∧
    (21474837 : Int) * 100 > 2147483647 ∧
    roundDuration_checked (run (winActions 21474837 freshGame) freshGame).game.score = none ∧
    game_frame_checked
      (add32 (run (winActions 21474837 freshGame) freshGame).game.start 100)
      (add32 (run (winActions 21474837 freshGame) freshGame).game.start 100) 0
      (run (winActions 21474837 freshGame) freshGame) = none := by
  have hc : coloursOk freshGame := game_setup_coloursOk 1 0 1 (main_init 1)
  have h0 : freshGame.game.score = 0 := rfl
  have hm : freshGame.gamemode = Gamemode.INGAME := rfl
  obtain ⟨_, hsc, hmode⟩ := winActions_checked 21474837 freshGame hc (by rw [h0])
    (by rw [h0]; decide)
  rw [h0] at hsc
  rw [hm] at hmode
  have hs : (run (winActions 21474837 freshGame) freshGame).game.score = 21474837 := by
    rw [hsc]
    decide
  have hout : ¬ inInt ((run (winActions 21474837 freshGame) freshGame).game.score * 100) := by
    rw [hs]
    decide
  exact ⟨reachableChecked_perfect 21474837 (le_refl _), hs, hmode, by decide,
    roundDuration_checked_none _ hout, game_frame_checked_none _ _ _ _ hout⟩

end ScolorC
